import Mathlib

/-!
Shallow embedding of the MedNeXt network architecture module
(nnunetv2/training/nnUNetTrainer/variants/network_architecture/nnUNetTrainerMedNeXt.py)
and proofs about it.

The architecture code builds `torch.nn` modules and runs tensors through them.
We embed it at two levels:

1. A shape semantics: every layer is modelled by the function it induces on
   tensor shapes (a shape is the list of dimension sizes, batch first, channel
   second).  PyTorch's convolution output-size arithmetic, transposed
   convolution arithmetic, broadcasting for elementwise operations, and
   `F.pad` are reproduced exactly.  Python runtime failures (failed asserts,
   reads of never-assigned attributes, shape mismatches, bad indices) are
   modelled with the `Except PyErr` monad.

2. A value semantics for the residual block's recalibration (GRN) step over
   exact rationals, with the convolutions, the normalization layer and the
   GELU activation as opaque parameters (they are identical on both sides of
   the equivalences proved about that step) and the square root inside
   `torch.norm` as an opaque function parameter.

Each `__init__` of the Python classes is modelled by an `...Init` function
producing a record of the constructed submodule configurations; each
`forward` by a `...Shape` / `...Forward` function.
-/

/-- Python runtime errors that the architecture code can raise. -/
inductive PyErr where
  | assertionError
  | attributeError
  | valueError
  | shapeError
  | notImplementedError
  | indexError
deriving DecidableEq, Repr

deriving instance DecidableEq for Except

/-- Broadcast two dimension sizes, PyTorch rule: equal, or one of them is 1. -/
def bcastDim (a b : ℕ) : Option ℕ :=
  if a = b then some a else if a = 1 then some b else if b = 1 then some a else none

/-- Broadcast two reversed shapes (so that alignment is at the head). -/
def bcastRev : List ℕ → List ℕ → Option (List ℕ)
  | [], ys => some ys
  | xs, [] => some xs
  | x :: xs, y :: ys => do
    let d ← bcastDim x y
    let rest ← bcastRev xs ys
    some (d :: rest)

/-- PyTorch broadcast of two shapes: right-align, pad the shorter with 1s. -/
def broadcastShapes (a b : List ℕ) : Option (List ℕ) :=
  (bcastRev a.reverse b.reverse).map List.reverse

/-- Shape of an elementwise binary operation (`+`, `-`, `*`, `/`):
PyTorch broadcasting; a non-broadcastable pair is a runtime error. -/
def addShape (a b : List ℕ) : Except PyErr (List ℕ) :=
  match broadcastShapes a b with
  | some s => .ok s
  | none => .error .shapeError

/-- Shape of `x.mean(d, keepdim=True)`: dimension `d` collapses to 1. -/
def meanDimKeep (d : ℕ) (s : List ℕ) : Except PyErr (List ℕ) :=
  if d < s.length then .ok (s.set d 1) else .error .shapeError

/-- Output size of one spatial axis of `nn.Conv2d`/`nn.Conv3d`
(dilation 1): `(size + 2*pad - k) / stride + 1`, error if not positive. -/
def convOutDim (size k stride pad : ℕ) : Except PyErr ℕ :=
  if size + 2 * pad < k then .error .shapeError
  else .ok ((size + 2 * pad - k) / stride + 1)

/-- Output size of one spatial axis of `nn.ConvTranspose2d`/`3d`
(dilation 1, output_padding 0): `(size - 1)*stride - 2*pad + k`. -/
def convTransOutDim (size k stride pad : ℕ) : Except PyErr ℕ :=
  if size = 0 ∨ (size - 1) * stride + k ≤ 2 * pad then .error .shapeError
  else .ok ((size - 1) * stride + k - 2 * pad)

/-- Shape of a convolution with `rank` spatial axes: input must be
`batch :: cin :: spatial` with `spatial.length = rank`; channel count must
match; every spatial axis is transformed by `convOutDim`.  The `groups`
argument of the source convolutions does not affect shapes and is omitted. -/
def convShape (cin cout k stride pad rank : ℕ) (s : List ℕ) :
    Except PyErr (List ℕ) :=
  match s with
  | n :: c :: sp =>
    if sp.length = rank ∧ c = cin then do
      let sp2 ← sp.mapM (fun d => convOutDim d k stride pad)
      .ok (n :: cout :: sp2)
    else .error .shapeError
  | _ => .error .shapeError

/-- Shape of a transposed convolution with `rank` spatial axes. -/
def convTransShape (cin cout k stride pad rank : ℕ) (s : List ℕ) :
    Except PyErr (List ℕ) :=
  match s with
  | n :: c :: sp =>
    if sp.length = rank ∧ c = cin then do
      let sp2 ← sp.mapM (fun d => convTransOutDim d k stride pad)
      .ok (n :: cout :: sp2)
    else .error .shapeError
  | _ => .error .shapeError

/-- Shape of `nn.GroupNorm(num_groups, num_channels)`: input channel count
must equal `num_channels` and be divisible into the groups; shape is kept. -/
def groupNormShape (g c : ℕ) (s : List ℕ) : Except PyErr (List ℕ) :=
  match s with
  | n :: ch :: rest =>
    if ch = c ∧ g ≠ 0 ∧ c % g = 0 then .ok (n :: ch :: rest)
    else .error .shapeError
  | _ => .error .shapeError

/-- Shape of the `channels_last` branch of the source `LayerNorm.forward`:
`F.layer_norm` over the trailing channel axis, which must equal `c`. -/
def layerNormCLShape (c : ℕ) (s : List ℕ) : Except PyErr (List ℕ) :=
  if s ≠ [] ∧ s.getLastD 0 = c then .ok s else .error .shapeError

/-- Shape of the `channels_first` branch of the source `LayerNorm.forward`,
step by step as written (lines 240-244 of the source):
`u = x.mean(1, keepdim=True)`, `s = (x - u).pow(2).mean(1, keepdim=True)`,
`x = (x - u) / torch.sqrt(s + eps)`, and then
`x = weight[:, None, None, None] * x + bias[:, None, None, None]` where
`weight` and `bias` have shape `[c]`, so the indexed views have shape
`[c, 1, 1, 1]` regardless of the rank of `x`. -/
def layerNormCFShape (c : ℕ) (s : List ℕ) : Except PyErr (List ℕ) := do
  let u ← meanDimKeep 1 s
  let xc ← addShape s u
  let sv ← meanDimKeep 1 xc
  let xn ← addShape xc sv
  let w := [c, 1, 1, 1]
  let wx ← addShape w xn
  addShape wx w

/-- A normalization layer as stored in `MedNeXtBlock.norm`. -/
inductive NormObj where
  | group (numGroups numChannels : ℕ)
  | layerCF (c : ℕ)
deriving DecidableEq, Repr

/-- Shape effect of the block's normalization attribute.  `none` models a
`MedNeXtBlock` built with an unsupported `norm_type`: the `if`/`elif` chain
of `MedNeXtBlock.__init__` (lines 48-57) assigns no `self.norm` at all, so
the attribute read in `forward` raises `AttributeError`. -/
def normShapeOpt (no : Option NormObj) (s : List ℕ) : Except PyErr (List ℕ) :=
  match no with
  | none => .error .attributeError
  | some (.group g c) => groupNormShape g c s
  | some (.layerCF c) => layerNormCFShape c s

/-- Shape of the GRN (global response normalization) step of
`MedNeXtBlock.forward` (lines 94-102): `gx = torch.norm(x1, p=2,
dim=spatial, keepdim=True)`, `nx = gx / (gx.mean(dim=1, keepdim=True) +
1e-6)`, `x1 = grn_gamma * (x1 * nx) + grn_beta + x1` where the learnable
`grn_gamma`/`grn_beta` have shape `1 :: cexp :: [1, ...]`. -/
def grnShape (rank cexp : ℕ) (s : List ℕ) : Except PyErr (List ℕ) :=
  if rank ≤ s.length then do
    let gx := s.take (s.length - rank) ++ List.replicate rank 1
    let m ← meanDimKeep 1 gx
    let nx ← addShape gx m
    let xnx ← addShape s nx
    let g := 1 :: cexp :: List.replicate rank 1
    let t1 ← addShape g xnx
    let t2 ← addShape t1 g
    addShape t2 s
  else .error .shapeError

/-- The configuration of a constructed `MedNeXtBlock` that is relevant to
shapes.  `conv1_stride`/`conv1_transposed` record the depthwise convolution,
which `MedNeXtDownBlock.__init__`/`MedNeXtUpBlock.__init__` replace with a
strided (resp. strided transposed) one. -/
structure MedNeXtBlockObj where
  in_channels : ℕ
  out_channels : ℕ
  exp_r : ℕ
  kernel_size : ℕ
  do_res : Bool
  rank : ℕ
  norm : Option NormObj
  grn : Bool
  conv1_stride : ℕ
  conv1_transposed : Bool
deriving DecidableEq, Repr

/-- `MedNeXtBlock.__init__` (lines 14-87).  `assert dim in ['2d', '3d']`;
`self.norm` is set only for `norm_type` `'group'` or `'layer'` (GroupNorm
with `num_groups = num_channels = in_channels`, LayerNorm in channels_first
mode over `in_channels`); any other kind leaves the attribute unset.
`n_groups` only changes the `groups` argument of `conv1`, which has no
shape effect. -/
def mednextBlockInit (in_channels out_channels exp_r kernel_size : ℕ)
    (do_res : Bool) (norm_type : String) (n_groups : Option ℕ)
    (dim : String) (grn : Bool) : Except PyErr MedNeXtBlockObj :=
  if dim = "2d" ∨ dim = "3d" then
    .ok {
      in_channels := in_channels
      out_channels := out_channels
      exp_r := exp_r
      kernel_size := kernel_size
      do_res := do_res
      rank := if dim = "2d" then 2 else 3
      norm :=
        if norm_type = "group" then some (.group in_channels in_channels)
        else if norm_type = "layer" then some (.layerCF in_channels)
        else none
      grn := grn
      conv1_stride := 1
      conv1_transposed := false }
  else .error .assertionError

/-- Shape of the block's depthwise convolution `self.conv1`:
kernel `kernel_size`, padding `kernel_size // 2`, in and out channels both
`in_channels`. -/
def conv1Shape (b : MedNeXtBlockObj) (s : List ℕ) : Except PyErr (List ℕ) :=
  if b.conv1_transposed then
    convTransShape b.in_channels b.in_channels b.kernel_size b.conv1_stride
      (b.kernel_size / 2) b.rank s
  else
    convShape b.in_channels b.in_channels b.kernel_size b.conv1_stride
      (b.kernel_size / 2) b.rank s

/-- `MedNeXtBlock.forward` (lines 89-106): conv1, norm, conv2 (expansion
1x1, `in -> exp_r*in`), GELU (elementwise, shape kept), optional GRN,
conv3 (compression 1x1, `exp_r*in -> out`), optional residual add of the
block input (a broadcast add in PyTorch). -/
def mednextBlockShape (b : MedNeXtBlockObj) (s : List ℕ) :
    Except PyErr (List ℕ) := do
  let x1 ← conv1Shape b s
  let x1 ← normShapeOpt b.norm x1
  let x1 ← convShape b.in_channels (b.exp_r * b.in_channels) 1 1 0 b.rank x1
  let x1 ← if b.grn then grnShape b.rank (b.exp_r * b.in_channels) x1
           else .ok x1
  let x1 ← convShape (b.exp_r * b.in_channels) b.out_channels 1 1 0 b.rank x1
  if b.do_res then addShape s x1 else .ok x1

/-- A constructed `MedNeXtDownBlock`: the base block (with its `conv1`
replaced by the stride-2 one) plus the transition-residual flag.  The
optional `res_conv` is a 1x1 stride-2 convolution `in -> out`. -/
structure MedNeXtDownBlockObj where
  base : MedNeXtBlockObj
  resample_do_res : Bool
deriving DecidableEq, Repr

/-- `MedNeXtDownBlock.__init__` (lines 111-138): the parent block is built
with `do_res=False`; `self.conv1` is replaced by a stride-2 depthwise
convolution; `do_res` of the caller becomes `resample_do_res`. -/
def mednextDownBlockInit (in_channels out_channels exp_r kernel_size : ℕ)
    (do_res : Bool) (norm_type : String) (dim : String) (grn : Bool) :
    Except PyErr MedNeXtDownBlockObj := do
  let base ← mednextBlockInit in_channels out_channels exp_r kernel_size
    false norm_type none dim grn
  .ok { base := { base with conv1_stride := 2 }, resample_do_res := do_res }

/-- `MedNeXtDownBlock.forward` (lines 140-148): the base forward, plus the
optional parallel stride-2 1x1 projection of the original input. -/
def mednextDownBlockShape (d : MedNeXtDownBlockObj) (s : List ℕ) :
    Except PyErr (List ℕ) := do
  let x1 ← mednextBlockShape d.base s
  if d.resample_do_res then do
    let res ← convShape d.base.in_channels d.base.out_channels 1 2 0
      d.base.rank s
    addShape x1 res
  else .ok x1

/-- A constructed `MedNeXtUpBlock`: base block with transposed stride-2
`conv1`, plus the transition-residual flag (its `res_conv` is a transposed
1x1 stride-2 convolution). -/
structure MedNeXtUpBlockObj where
  base : MedNeXtBlockObj
  resample_do_res : Bool
deriving DecidableEq, Repr

/-- `MedNeXtUpBlock.__init__` (lines 153-181). -/
def mednextUpBlockInit (in_channels out_channels exp_r kernel_size : ℕ)
    (do_res : Bool) (norm_type : String) (dim : String) (grn : Bool) :
    Except PyErr MedNeXtUpBlockObj := do
  let base ← mednextBlockInit in_channels out_channels exp_r kernel_size
    false norm_type none dim grn
  .ok { base := { base with conv1_stride := 2, conv1_transposed := true },
        resample_do_res := do_res }

/-- `torch.nn.functional.pad(x, (1, 0, 1, 0))` / `(1, 0, 1, 0, 1, 0)`:
one extra zero on the leading edge of each of the last `rank` axes. -/
def padSpatialOne (rank : ℕ) (s : List ℕ) : Except PyErr (List ℕ) :=
  if rank ≤ s.length then
    .ok (s.take (s.length - rank) ++ (s.drop (s.length - rank)).map
      (fun d => d + 1))
  else .error .shapeError

/-- `MedNeXtUpBlock.forward` (lines 183-201): base forward, then the
one-unit leading-edge pad; if the transition residual is on, the parallel
transposed projection of the original input gets the identical pad before
the two paths are summed. -/
def mednextUpBlockShape (u : MedNeXtUpBlockObj) (s : List ℕ) :
    Except PyErr (List ℕ) := do
  let x1 ← mednextBlockShape u.base s
  let x1 ← padSpatialOne u.base.rank x1
  if u.resample_do_res then do
    let res ← convTransShape u.base.in_channels u.base.out_channels 1 2 0
      u.base.rank s
    let res ← padSpatialOne u.base.rank res
    addShape x1 res
  else .ok x1

/-- A constructed `OutBlock` (lines 204-216): a transposed convolution with
kernel 1, stride 1, mapping `in_channels` to `n_classes`. -/
structure OutBlockObj where
  in_channels : ℕ
  n_classes : ℕ
  rank : ℕ
deriving DecidableEq, Repr

/-- `OutBlock.forward`. -/
def outBlockShape (o : OutBlockObj) (s : List ℕ) : Except PyErr (List ℕ) :=
  convTransShape o.in_channels o.n_classes 1 1 0 o.rank s

/-- `exp_r` may be a single integer or a per-stage list; an integer is
broadcast to `len(block_counts)` copies (lines 280-281 / 424-425). -/
def expandExpR (exp_r : ℕ ⊕ List ℕ) (block_counts : List ℕ) : List ℕ :=
  match exp_r with
  | .inl k => List.replicate block_counts.length k
  | .inr l => l

/-- Python list indexing: out of range raises `IndexError`. -/
def listIdx (l : List ℕ) (i : ℕ) : Except PyErr ℕ :=
  match l.get? i with
  | some v => .ok v
  | none => .error .indexError

/-- A constructed `MedNeXtEncoder`.  `return_skips` models the Python
attribute of that name: `MedNeXtEncoder.__init__` (lines 248-380) never
assigns it, and nothing else in the module does, so it is `none` (reading
it raises `AttributeError`). -/
structure MedNeXtEncoderObj where
  outside_block_checkpointing : Bool
  rank : ℕ
  stem_in : ℕ
  stem_out : ℕ
  enc_block_0 : List MedNeXtBlockObj
  down_0 : MedNeXtDownBlockObj
  enc_block_1 : List MedNeXtBlockObj
  down_1 : MedNeXtDownBlockObj
  enc_block_2 : List MedNeXtBlockObj
  down_2 : MedNeXtDownBlockObj
  enc_block_3 : List MedNeXtBlockObj
  down_3 : MedNeXtDownBlockObj
  return_skips : Option Bool
deriving DecidableEq, Repr

/-- `MedNeXtEncoder.__init__` (lines 248-380): asserts on
`checkpoint_style` and `dim`; a 1x1 stem convolution `in -> n`; for each
stage `i` in 0-3 a sequence of `block_counts[i]` identical blocks at width
`2^i * n` and a `MedNeXtDownBlock` doubling the width.  Note that `down_0`
(lines 297-305) is built WITHOUT the `grn` argument, so it uses the Python
default `grn=False`, while `down_1`/`down_2`/`down_3` forward the flag. -/
def mednextEncoderInit (in_channels n_channels : ℕ) (exp_r : ℕ ⊕ List ℕ)
    (kernel_size : ℕ) (do_res do_res_up_down : Bool)
    (checkpoint_style : Option String) (block_counts : List ℕ)
    (norm_type dim : String) (grn : Bool) :
    Except PyErr MedNeXtEncoderObj := do
  if checkpoint_style = none ∨ checkpoint_style = some "outside_block" then
    if dim = "2d" ∨ dim = "3d" then do
      let er := expandExpR exp_r block_counts
      let e0 ← listIdx er 0
      let e1 ← listIdx er 1
      let e2 ← listIdx er 2
      let e3 ← listIdx er 3
      let e4 ← listIdx er 4
      let b0 ← listIdx block_counts 0
      let b1 ← listIdx block_counts 1
      let b2 ← listIdx block_counts 2
      let b3 ← listIdx block_counts 3
      let blk0 ← mednextBlockInit n_channels n_channels e0 kernel_size
        do_res norm_type none dim grn
      let d0 ← mednextDownBlockInit n_channels (2 * n_channels) e1
        kernel_size do_res_up_down norm_type dim false
      let blk1 ← mednextBlockInit (2 * n_channels) (2 * n_channels) e1
        kernel_size do_res norm_type none dim grn
      let d1 ← mednextDownBlockInit (2 * n_channels) (4 * n_channels) e2
        kernel_size do_res_up_down norm_type dim grn
      let blk2 ← mednextBlockInit (4 * n_channels) (4 * n_channels) e2
        kernel_size do_res norm_type none dim grn
      let d2 ← mednextDownBlockInit (4 * n_channels) (8 * n_channels) e3
        kernel_size do_res_up_down norm_type dim grn
      let blk3 ← mednextBlockInit (8 * n_channels) (8 * n_channels) e3
        kernel_size do_res norm_type none dim grn
      let d3 ← mednextDownBlockInit (8 * n_channels) (16 * n_channels) e4
        kernel_size do_res_up_down norm_type dim grn
      .ok {
        outside_block_checkpointing := checkpoint_style == some "outside_block"
        rank := if dim = "2d" then 2 else 3
        stem_in := in_channels
        stem_out := n_channels
        enc_block_0 := List.replicate b0 blk0
        down_0 := d0
        enc_block_1 := List.replicate b1 blk1
        down_1 := d1
        enc_block_2 := List.replicate b2 blk2
        down_2 := d2
        enc_block_3 := List.replicate b3 blk3
        down_3 := d3
        return_skips := none }
    else .error .assertionError
  else .error .assertionError

/-- Running an `nn.Sequential` of residual blocks. -/
def blockSeqShape (blocks : List MedNeXtBlockObj) (s : List ℕ) :
    Except PyErr (List ℕ) :=
  blocks.foldlM (fun x b => mednextBlockShape b x) s

/-- The two possible returns of `MedNeXtEncoder.forward`. -/
inductive EncOut where
  | single (t : List ℕ)
  | skips (l : List (List ℕ))
deriving DecidableEq, Repr

/-- The `ret` list built by `MedNeXtEncoder.forward` (lines 382-401):
stem, stage-0 blocks (recorded), down_0, stage-1 blocks (recorded), ...,
down_3 (recorded): 5 feature maps, finest first. -/
def mednextEncoderRet (e : MedNeXtEncoderObj) (s : List ℕ) :
    Except PyErr (List (List ℕ)) := do
  let x ← convShape e.stem_in e.stem_out 1 1 0 e.rank s
  let x ← blockSeqShape e.enc_block_0 x
  let r0 := x
  let x ← mednextDownBlockShape e.down_0 x
  let x ← blockSeqShape e.enc_block_1 x
  let r1 := x
  let x ← mednextDownBlockShape e.down_1 x
  let x ← blockSeqShape e.enc_block_2 x
  let r2 := x
  let x ← mednextDownBlockShape e.down_2 x
  let x ← blockSeqShape e.enc_block_3 x
  let r3 := x
  let x ← mednextDownBlockShape e.down_3 x
  .ok [r0, r1, r2, r3, x]

/-- `MedNeXtEncoder.forward` (lines 382-405): after building `ret` it
evaluates `if self.return_skips:` -- but `return_skips` was never assigned
(`return_skips = none`), so the attribute read raises `AttributeError`. -/
def mednextEncoderForward (e : MedNeXtEncoderObj) (s : List ℕ) :
    Except PyErr EncOut := do
  let ret ← mednextEncoderRet e s
  match e.return_skips with
  | none => .error .attributeError
  | some true => .ok (.skips ret)
  | some false => .ok (.single (ret.getLastD []))

/-- A constructed `MedNeXtDecoder`.  The deep-supervision output heads
`out_1`-`out_4` exist only when `deep_supervision` was set
(lines 557-561). -/
structure MedNeXtDecoderObj where
  do_ds : Bool
  outside_block_checkpointing : Bool
  rank : ℕ
  bottleneck : List MedNeXtBlockObj
  up_3 : MedNeXtUpBlockObj
  dec_block_3 : List MedNeXtBlockObj
  up_2 : MedNeXtUpBlockObj
  dec_block_2 : List MedNeXtBlockObj
  up_1 : MedNeXtUpBlockObj
  dec_block_1 : List MedNeXtBlockObj
  up_0 : MedNeXtUpBlockObj
  dec_block_0 : List MedNeXtBlockObj
  out_0 : OutBlockObj
  out_1 : Option OutBlockObj
  out_2 : Option OutBlockObj
  out_3 : Option OutBlockObj
  out_4 : Option OutBlockObj
deriving DecidableEq, Repr

/-- `MedNeXtDecoder.__init__` (lines 408-563).  The `in_channels`
parameter is accepted but never used by the source constructor.  Stage
widths: bottleneck `16n` (count `block_counts[4]`, ratio `exp_r[4]`),
up/dec stage `i` at widths `16n -> 8n -> ... -> n` with ratios
`exp_r[5..8]` and counts `block_counts[5..8]`. -/
def mednextDecoderInit (in_channels n_channels n_classes : ℕ)
    (exp_r : ℕ ⊕ List ℕ) (kernel_size : ℕ)
    (deep_supervision do_res do_res_up_down : Bool)
    (checkpoint_style : Option String) (block_counts : List ℕ)
    (norm_type dim : String) (grn : Bool) :
    Except PyErr MedNeXtDecoderObj := do
  let er := expandExpR exp_r block_counts
  if checkpoint_style = none ∨ checkpoint_style = some "outside_block" then
    if dim = "2d" ∨ dim = "3d" then do
      let rank := if dim = "2d" then 2 else 3
      let e4 ← listIdx er 4
      let e5 ← listIdx er 5
      let e6 ← listIdx er 6
      let e7 ← listIdx er 7
      let e8 ← listIdx er 8
      let b4 ← listIdx block_counts 4
      let b5 ← listIdx block_counts 5
      let b6 ← listIdx block_counts 6
      let b7 ← listIdx block_counts 7
      let b8 ← listIdx block_counts 8
      let bneck ← mednextBlockInit (16 * n_channels) (16 * n_channels) e4
        kernel_size do_res norm_type none dim grn
      let u3 ← mednextUpBlockInit (16 * n_channels) (8 * n_channels) e5
        kernel_size do_res_up_down norm_type dim grn
      let db3 ← mednextBlockInit (8 * n_channels) (8 * n_channels) e5
        kernel_size do_res norm_type none dim grn
      let u2 ← mednextUpBlockInit (8 * n_channels) (4 * n_channels) e6
        kernel_size do_res_up_down norm_type dim grn
      let db2 ← mednextBlockInit (4 * n_channels) (4 * n_channels) e6
        kernel_size do_res norm_type none dim grn
      let u1 ← mednextUpBlockInit (4 * n_channels) (2 * n_channels) e7
        kernel_size do_res_up_down norm_type dim grn
      let db1 ← mednextBlockInit (2 * n_channels) (2 * n_channels) e7
        kernel_size do_res norm_type none dim grn
      let u0 ← mednextUpBlockInit (2 * n_channels) n_channels e8
        kernel_size do_res_up_down norm_type dim grn
      let db0 ← mednextBlockInit n_channels n_channels e8
        kernel_size do_res norm_type none dim grn
      .ok {
        do_ds := deep_supervision
        outside_block_checkpointing := checkpoint_style == some "outside_block"
        rank := rank
        bottleneck := List.replicate b4 bneck
        up_3 := u3
        dec_block_3 := List.replicate b5 db3
        up_2 := u2
        dec_block_2 := List.replicate b6 db2
        up_1 := u1
        dec_block_1 := List.replicate b7 db1
        up_0 := u0
        dec_block_0 := List.replicate b8 db0
        out_0 := { in_channels := n_channels, n_classes := n_classes,
                   rank := rank }
        out_1 := if deep_supervision then
            some { in_channels := 2 * n_channels, n_classes := n_classes,
                   rank := rank } else none
        out_2 := if deep_supervision then
            some { in_channels := 4 * n_channels, n_classes := n_classes,
                   rank := rank } else none
        out_3 := if deep_supervision then
            some { in_channels := 8 * n_channels, n_classes := n_classes,
                   rank := rank } else none
        out_4 := if deep_supervision then
            some { in_channels := 16 * n_channels, n_classes := n_classes,
                   rank := rank } else none }
    else .error .assertionError
  else .error .assertionError

/-- The two possible returns of `MedNeXtDecoder.forward`: one logit map,
or (with deep supervision) the list `[x, x_ds_1, x_ds_2, x_ds_3, x_ds_4]`. -/
inductive DecOut where
  | single (t : List ℕ)
  | multi (l : List (List ℕ))
deriving DecidableEq, Repr

/-- Applying an optional output head; reading a head that was not created
(`deep_supervision` off) raises `AttributeError`. -/
def outOptShape (o : Option OutBlockObj) (s : List ℕ) :
    Except PyErr (List ℕ) :=
  match o with
  | none => .error .attributeError
  | some ob => outBlockShape ob s

/-- The conditional `if self.do_ds: x_ds_i = self.out_i(x)` of
`MedNeXtDecoder.forward`: when `do_ds` is set the head is applied and the
name `x_ds_i` is bound, otherwise it stays unbound (`none`). -/
def dsHead (do_ds : Bool) (o : Option OutBlockObj) (s : List ℕ) :
    Except PyErr (Option (List ℕ)) :=
  if do_ds then (outOptShape o s).map some else .ok none

/-- `MedNeXtDecoder.forward` (lines 564-602): bottleneck; for each stage an
upsample, a broadcast add with the matching skip, the stage blocks, and
(when `do_ds`) an output head; the finest head `out_0` is applied
unconditionally.  With `do_ds` the return is `[x, x_ds_1, x_ds_2, x_ds_3,
x_ds_4]` -- the full-resolution map FIRST -- otherwise just `x`.
The Python signature takes the skips as one 4-element sequence and unpacks
`x_res_3, x_res_2, x_res_1, x_res_0 = skips` (line 565); here they are the
four explicit arguments in that order. -/
def mednextDecoderForward (d : MedNeXtDecoderObj) (x0 : List ℕ)
    (x_res_3 x_res_2 x_res_1 x_res_0 : List ℕ) : Except PyErr DecOut := do
  let x ← blockSeqShape d.bottleneck x0
  let x_ds_4 ← dsHead d.do_ds d.out_4 x
  let x_up_3 ← mednextUpBlockShape d.up_3 x
  let dec_x ← addShape x_res_3 x_up_3
  let x ← blockSeqShape d.dec_block_3 dec_x
  let x_ds_3 ← dsHead d.do_ds d.out_3 x
  let x_up_2 ← mednextUpBlockShape d.up_2 x
  let dec_x ← addShape x_res_2 x_up_2
  let x ← blockSeqShape d.dec_block_2 dec_x
  let x_ds_2 ← dsHead d.do_ds d.out_2 x
  let x_up_1 ← mednextUpBlockShape d.up_1 x
  let dec_x ← addShape x_res_1 x_up_1
  let x ← blockSeqShape d.dec_block_1 dec_x
  let x_ds_1 ← dsHead d.do_ds d.out_1 x
  let x_up_0 ← mednextUpBlockShape d.up_0 x
  let dec_x ← addShape x_res_0 x_up_0
  let x ← blockSeqShape d.dec_block_0 dec_x
  let x ← outBlockShape d.out_0 x
  if d.do_ds then
    match x_ds_1, x_ds_2, x_ds_3, x_ds_4 with
    | some a, some b, some c, some e => .ok (.multi [x, a, b, c, e])
    | _, _, _, _ => .error .attributeError
  else .ok (.single x)

/-- A constructed `MedNeXt` network. -/
structure MedNeXtObj where
  do_ds : Bool
  outside_block_checkpointing : Bool
  encoder : MedNeXtEncoderObj
  decoder : MedNeXtDecoderObj
deriving DecidableEq, Repr

/-- `MedNeXt.__init__` (lines 605-644): asserts, then builds the encoder
and the decoder.  `kernel_size` (non-None here) overrides both the encoder
and the decoder kernel sizes (lines 634-636). -/
def mednextInit (in_channels n_channels n_classes : ℕ) (exp_r : ℕ ⊕ List ℕ)
    (kernel_size : ℕ) (deep_supervision do_res do_res_up_down : Bool)
    (checkpoint_style : Option String) (block_counts : List ℕ)
    (norm_type dim : String) (grn : Bool) : Except PyErr MedNeXtObj := do
  if checkpoint_style = none ∨ checkpoint_style = some "outside_block" then
    if dim = "2d" ∨ dim = "3d" then do
      let enc ← mednextEncoderInit in_channels n_channels exp_r kernel_size
        do_res do_res_up_down checkpoint_style block_counts norm_type dim grn
      let dec ← mednextDecoderInit in_channels n_channels n_classes exp_r
        kernel_size deep_supervision do_res do_res_up_down checkpoint_style
        block_counts norm_type dim grn
      .ok { do_ds := deep_supervision
            outside_block_checkpointing :=
              checkpoint_style == some "outside_block"
            encoder := enc
            decoder := dec }
    else .error .assertionError
  else .error .assertionError

/-- `MedNeXt.forward` (lines 658-662): `x, skips = self.encoder(x)`.
The encoder's forward itself raises `AttributeError` (see
`mednextEncoderForward`); were any value returned, the two-name unpacking
of a 5-element list (or of a tensor) would raise as well, so the decoder is
never reached. -/
def mednextForward (m : MedNeXtObj) (s : List ℕ) : Except PyErr DecOut :=
  match mednextEncoderForward m.encoder s with
  | .error e => .error e
  | .ok (.skips _) => .error .valueError
  | .ok (.single _) => .error .valueError

/-- The spatial part of a shape (everything after batch and channel). -/
def spatialDims (s : List ℕ) : List ℕ := s.drop 2

/-- The number of spatial positions of a shape. -/
def spatialNumel (s : List ℕ) : ℕ := (s.drop 2).prod

/-- Spatial sizes strictly increasing along a list of shapes (the ordering
the specification asserts for the deep-supervision outputs). -/
def strictlyFiner : List (List ℕ) → Prop
  | [] => True
  | [_] => True
  | a :: b :: t => spatialNumel a < spatialNumel b ∧ strictlyFiner (b :: t)

instance strictlyFinerDec : (l : List (List ℕ)) → Decidable (strictlyFiner l)
  | [] => .isTrue trivial
  | [_] => .isTrue trivial
  | _ :: b :: t =>
    have : Decidable (strictlyFiner (b :: t)) := strictlyFinerDec (b :: t)
    inferInstanceAs (Decidable (_ ∧ _))

/-- Spatial sizes strictly decreasing along a list of shapes (what the
decoder actually produces). -/
def strictlyCoarser : List (List ℕ) → Prop
  | [] => True
  | [_] => True
  | a :: b :: t => spatialNumel b < spatialNumel a ∧ strictlyCoarser (b :: t)

instance strictlyCoarserDec :
    (l : List (List ℕ)) → Decidable (strictlyCoarser l)
  | [] => .isTrue trivial
  | [_] => .isTrue trivial
  | _ :: b :: t =>
    have : Decidable (strictlyCoarser (b :: t)) := strictlyCoarserDec (b :: t)
    inferInstanceAs (Decidable (_ ∧ _))

/-!
Value-level embedding of `MedNeXtBlock.forward` over exact rationals.

A tensor with a batch axis, a channel axis and spatial axes indexed by a
finite type `ι` is a function `ℕ → ℕ → ι → ℚ`.  The convolutions and the
normalization layer are opaque tensor transformations (they carry learnable
parameters we never inspect) and the GELU activation and the square root
inside `torch.norm` are opaque scalar functions; the GRN recalibration step
itself is written out exactly as in lines 94-102 of the source.
-/

/-- The GRN step of `MedNeXtBlock.forward` (lines 94-102):
`gx = torch.norm(x1, p=2, dim=spatial, keepdim=True)` (an L2 norm over the
spatial axes, i.e. `sqrt` of the sum of squares),
`nx = gx / (gx.mean(dim=1, keepdim=True) + 1e-6)` (the channel mean over
the `cexp` channels), and
`x1 = grn_gamma * (x1 * nx) + grn_beta + x1` with per-channel
`grn_gamma`/`grn_beta`. -/
def grnStep {ι : Type} [Fintype ι] (cexp : ℕ) (sqrtFn : ℚ → ℚ)
    (gamma beta : ℕ → ℚ) (x : ℕ → ℕ → ι → ℚ) : ℕ → ℕ → ι → ℚ :=
  let gx : ℕ → ℕ → ℚ := fun n c => sqrtFn (∑ t : ι, x n c t ^ 2)
  let nx : ℕ → ℕ → ℚ :=
    fun n c => gx n c / ((∑ j ∈ Finset.range cexp, gx n j) / cexp + 1 / 1000000)
  fun n c t => gamma c * (x n c t * nx n c) + beta c + x n c t

/-- A `MedNeXtBlock` at the value level: its layers as opaque tensor maps
plus the GRN configuration.  `grn_gamma`/`grn_beta` are the learnable
per-channel parameters, zero-initialized by `__init__` (lines 83-87). -/
structure ValueBlockObj (ι : Type) where
  conv1 : (ℕ → ℕ → ι → ℚ) → ℕ → ℕ → ι → ℚ
  norm : (ℕ → ℕ → ι → ℚ) → ℕ → ℕ → ι → ℚ
  conv2 : (ℕ → ℕ → ι → ℚ) → ℕ → ℕ → ι → ℚ
  act : ℚ → ℚ
  conv3 : (ℕ → ℕ → ι → ℚ) → ℕ → ℕ → ι → ℚ
  cexp : ℕ
  sqrtFn : ℚ → ℚ
  grn : Bool
  grn_gamma : ℕ → ℚ
  grn_beta : ℕ → ℚ
  do_res : Bool

/-- `MedNeXtBlock.forward` (lines 89-106) at the value level:
`x1 = conv1(x)`, `x1 = act(conv2(norm(x1)))`, the GRN step when `grn` is
set, `x1 = conv3(x1)`, and the residual add when `do_res` is set. -/
def valueBlockForward {ι : Type} [Fintype ι] (b : ValueBlockObj ι)
    (x : ℕ → ℕ → ι → ℚ) : ℕ → ℕ → ι → ℚ :=
  let x1 := b.conv1 x
  let x1 := fun n c t => b.act (b.conv2 (b.norm x1) n c t)
  let x1 := if b.grn then grnStep b.cexp b.sqrtFn b.grn_gamma b.grn_beta x1
            else x1
  let x1 := b.conv3 x1
  if b.do_res then fun n c t => x n c t + x1 n c t else x1

/-- The residual block that `mednextBlockInit` constructs for the default
'group' normalization kind (spelled out as a record for use in proofs). -/
def stdBlock (cin cout e k : ℕ) (dr : Bool) (rank : ℕ) (g : Bool) :
    MedNeXtBlockObj :=
  { in_channels := cin, out_channels := cout, exp_r := e, kernel_size := k,
    do_res := dr, rank := rank, norm := some (.group cin cin), grn := g,
    conv1_stride := 1, conv1_transposed := false }

/-- The down-transition block `mednextDownBlockInit` constructs for the
'group' normalization kind. -/
def stdDown (cin cout e k : ℕ) (drud : Bool) (rank : ℕ) (g : Bool) :
    MedNeXtDownBlockObj :=
  { base := { (stdBlock cin cout e k false rank g) with conv1_stride := 2 },
    resample_do_res := drud }

/-- The up-transition block `mednextUpBlockInit` constructs for the
'group' normalization kind. -/
def stdUp (cin cout e k : ℕ) (drud : Bool) (rank : ℕ) (g : Bool) :
    MedNeXtUpBlockObj :=
  { base := { (stdBlock cin cout e k false rank g) with
      conv1_stride := 2
      conv1_transposed := true },
    resample_do_res := drud }

/-- The decoder that `mednextDecoderInit 1 1 1 (.inl 2) 3 true false true
none [2,...,2] "group" "3d" false` constructs (a concrete instance used as
a test vector). -/
def c3Dec : MedNeXtDecoderObj :=
  { do_ds := true
    outside_block_checkpointing := false
    rank := 3
    bottleneck := List.replicate 2 (stdBlock 16 16 2 3 false 3 false)
    up_3 := stdUp 16 8 2 3 true 3 false
    dec_block_3 := List.replicate 2 (stdBlock 8 8 2 3 false 3 false)
    up_2 := stdUp 8 4 2 3 true 3 false
    dec_block_2 := List.replicate 2 (stdBlock 4 4 2 3 false 3 false)
    up_1 := stdUp 4 2 2 3 true 3 false
    dec_block_1 := List.replicate 2 (stdBlock 2 2 2 3 false 3 false)
    up_0 := stdUp 2 1 2 3 true 3 false
    dec_block_0 := List.replicate 2 (stdBlock 1 1 2 3 false 3 false)
    out_0 := { in_channels := 1, n_classes := 1, rank := 3 }
    out_1 := some { in_channels := 2, n_classes := 1, rank := 3 }
    out_2 := some { in_channels := 4, n_classes := 1, rank := 3 }
    out_3 := some { in_channels := 8, n_classes := 1, rank := 3 }
    out_4 := some { in_channels := 16, n_classes := 1, rank := 3 } }

/-- The encoder that `mednextEncoderInit 1 1 (.inl 2) 3 false false none
[1,...,1] "group" "3d" true` constructs (a concrete instance used as a
test vector: note `down_0` ends up with `grn := false` although the
encoder was built with `grn := true`). -/
def c10Enc : MedNeXtEncoderObj :=
  { outside_block_checkpointing := false
    rank := 3
    stem_in := 1
    stem_out := 1
    enc_block_0 := List.replicate 1 (stdBlock 1 1 2 3 false 3 true)
    down_0 := stdDown 1 2 2 3 false 3 false
    enc_block_1 := List.replicate 1 (stdBlock 2 2 2 3 false 3 true)
    down_1 := stdDown 2 4 2 3 false 3 true
    enc_block_2 := List.replicate 1 (stdBlock 4 4 2 3 false 3 true)
    down_2 := stdDown 4 8 2 3 false 3 true
    enc_block_3 := List.replicate 1 (stdBlock 8 8 2 3 false 3 true)
    down_3 := stdDown 8 16 2 3 false 3 true
    return_skips := none }

/-! ## Helper lemmas -/

theorem exceptOkBind {α β : Type} {a : α} {f : α → Except PyErr β} :
    (Except.ok a : Except PyErr α) >>= f = f a := rfl

theorem exceptBindOk {α β : Type} {x : Except PyErr α}
    {f : α → Except PyErr β} {b : β} :
    x >>= f = .ok b ↔ ∃ a, x = .ok a ∧ f a = .ok b := by
  cases x <;> simp [Bind.bind, Except.bind]

theorem bcastRevSelf (l : List ℕ) : bcastRev l l = some l := by
  induction l with
  | nil => rfl
  | cons a t ih => simp [bcastRev, bcastDim, ih]

theorem addShapeSelf (s : List ℕ) : addShape s s = .ok s := by
  unfold addShape broadcastShapes
  rw [bcastRevSelf]
  simp

theorem mapMOkMap {f : ℕ → Except PyErr ℕ} {g : ℕ → ℕ} {sp : List ℕ}
    (h : ∀ d ∈ sp, f d = .ok (g d)) : sp.mapM f = .ok (sp.map g) := by
  induction sp with
  | nil => rfl
  | cons a t ih =>
    rw [List.mapM_cons, h a (List.mem_cons_self a t),
      ih (fun d hd => h d (List.mem_cons_of_mem a hd))]
    rfl

theorem mapMOkId {f : ℕ → Except PyErr ℕ} {sp : List ℕ}
    (h : ∀ d ∈ sp, f d = .ok d) : sp.mapM f = .ok sp := by
  have := @mapMOkMap f (fun d => d) sp h
  simpa using this

theorem convShapeOk {cin cout k stride pad rank N : ℕ} {sp sp2 : List ℕ}
    (hlen : sp.length = rank)
    (hmap : sp.mapM (fun d => convOutDim d k stride pad) = .ok sp2) :
    convShape cin cout k stride pad rank (N :: cin :: sp) =
      .ok (N :: cout :: sp2) := by
  simp only [convShape]
  rw [if_pos ⟨hlen, trivial⟩, hmap, exceptOkBind]

theorem convTransShapeOk {cin cout k stride pad rank N : ℕ} {sp sp2 : List ℕ}
    (hlen : sp.length = rank)
    (hmap : sp.mapM (fun d => convTransOutDim d k stride pad) = .ok sp2) :
    convTransShape cin cout k stride pad rank (N :: cin :: sp) =
      .ok (N :: cout :: sp2) := by
  simp only [convTransShape]
  rw [if_pos ⟨hlen, trivial⟩, hmap, exceptOkBind]

theorem convOutDimId {d k : ℕ} (hk : k % 2 = 1) (hd : 1 ≤ d) :
    convOutDim d k 1 (k / 2) = .ok d := by
  unfold convOutDim
  rw [if_neg (by omega)]
  congr 1
  omega

theorem convOutDimOne {d : ℕ} (hd : 1 ≤ d) : convOutDim d 1 1 0 = .ok d := by
  unfold convOutDim
  rw [if_neg (by omega)]
  congr 1
  omega

theorem convOutDimHalf {d k : ℕ} (hk : k % 2 = 1) (hd : d % 2 = 0)
    (hd1 : 1 ≤ d) : convOutDim d k 2 (k / 2) = .ok (d / 2) := by
  unfold convOutDim
  rw [if_neg (by omega)]
  congr 1
  omega

theorem convOutDimHalfOne {d : ℕ} (hd : d % 2 = 0) (hd1 : 1 ≤ d) :
    convOutDim d 1 2 0 = .ok (d / 2) := by
  unfold convOutDim
  rw [if_neg (by omega)]
  congr 1
  omega

theorem convTransOutDimDouble {d k : ℕ} (hk : k % 2 = 1) (hd : 1 ≤ d) :
    convTransOutDim d k 2 (k / 2) = .ok (2 * d - 1) := by
  unfold convTransOutDim
  rw [if_neg (by omega)]
  congr 1
  omega

theorem convTransOutDimDoubleOne {d : ℕ} (hd : 1 ≤ d) :
    convTransOutDim d 1 2 0 = .ok (2 * d - 1) := by
  unfold convTransOutDim
  rw [if_neg (by omega)]
  congr 1
  omega

theorem convTransOutDimId {d : ℕ} (hd : 1 ≤ d) :
    convTransOutDim d 1 1 0 = .ok d := by
  unfold convTransOutDim
  rw [if_neg (by omega)]
  congr 1
  omega

theorem groupNormShapeOk {c N : ℕ} {rest : List ℕ} (hc : 1 ≤ c) :
    groupNormShape c c (N :: c :: rest) = .ok (N :: c :: rest) := by
  simp only [groupNormShape]
  rw [if_pos ⟨trivial, by omega, Nat.mod_self c⟩]

theorem padSpatialOneCons {rank N C : ℕ} {sp : List ℕ}
    (h : sp.length = rank) :
    padSpatialOne rank (N :: C :: sp) =
      .ok (N :: C :: sp.map (fun d => d + 1)) := by
  unfold padSpatialOne
  rw [if_pos (by simp [h]; omega)]
  have h2 : (N :: C :: sp).length - rank = 2 := by simp [h]; omega
  rw [h2]
  simp

/-- The main preservation law: a plain residual block (stride-1 depthwise
convolution, group normalization, no GRN, matching channel widths) maps
shape `N :: C :: sp` to itself, whatever the residual flag. -/
theorem blockShapePreserve (b : MedNeXtBlockObj) (N : ℕ) (sp : List ℕ)
    (hout : b.out_channels = b.in_channels)
    (hk : b.kernel_size % 2 = 1) (hs : b.conv1_stride = 1)
    (ht : b.conv1_transposed = false)
    (hn : b.norm = some (.group b.in_channels b.in_channels))
    (hgrn : b.grn = false) (hr : sp.length = b.rank)
    (hsp : ∀ d ∈ sp, 1 ≤ d) (hC : 1 ≤ b.in_channels) :
    mednextBlockShape b (N :: b.in_channels :: sp) =
      .ok (N :: b.in_channels :: sp) := by
  have hmapOne : sp.mapM (fun d => convOutDim d 1 1 0) = .ok sp :=
    mapMOkId (fun d hd => convOutDimOne (hsp d hd))
  have hconv1 : conv1Shape b (N :: b.in_channels :: sp) =
      .ok (N :: b.in_channels :: sp) := by
    unfold conv1Shape
    rw [ht, hs]
    rw [if_neg Bool.false_ne_true]
    exact convShapeOk hr (mapMOkId (fun d hd => convOutDimId hk (hsp d hd)))
  have hnorm : normShapeOpt b.norm (N :: b.in_channels :: sp) =
      .ok (N :: b.in_channels :: sp) := by
    rw [hn]
    exact groupNormShapeOk hC
  unfold mednextBlockShape
  simp only [hconv1, hnorm, exceptOkBind, convShapeOk hr hmapOne, hgrn,
    Bool.false_eq_true, if_false, hout]
  cases hdr : b.do_res <;> simp [addShapeSelf]

/-- A `MedNeXtDownBlock` on an input whose spatial sizes are all even and
positive halves every spatial axis and moves the channel width from
`in_channels` to `out_channels` (both paths, whatever the transition
residual flag). -/
theorem downBlockShapeOk (d : MedNeXtDownBlockObj) (N : ℕ) (sp : List ℕ)
    (hk : d.base.kernel_size % 2 = 1) (hs : d.base.conv1_stride = 2)
    (ht : d.base.conv1_transposed = false)
    (hn : d.base.norm = some (.group d.base.in_channels d.base.in_channels))
    (hdr : d.base.do_res = false) (hgrn : d.base.grn = false)
    (hr : sp.length = d.base.rank)
    (hsp : ∀ x ∈ sp, x % 2 = 0 ∧ 1 ≤ x) (hC : 1 ≤ d.base.in_channels) :
    mednextDownBlockShape d (N :: d.base.in_channels :: sp) =
      .ok (N :: d.base.out_channels :: sp.map (fun x => x / 2)) := by
  have hhalf : sp.mapM (fun x => convOutDim x d.base.kernel_size 2
      (d.base.kernel_size / 2)) = .ok (sp.map (fun x => x / 2)) :=
    mapMOkMap (fun x hx => convOutDimHalf hk (hsp x hx).1 (hsp x hx).2)
  have hlen2 : (sp.map (fun x => x / 2)).length = d.base.rank := by
    simp [hr]
  have hmapOne2 : (sp.map (fun x => x / 2)).mapM
      (fun x => convOutDim x 1 1 0) = .ok (sp.map (fun x => x / 2)) := by
    refine mapMOkId (fun x hx => ?_)
    obtain ⟨y, hy, rfl⟩ := List.mem_map.mp hx
    have := hsp y hy
    exact convOutDimOne (by omega)
  have hnorm : normShapeOpt d.base.norm
      (N :: d.base.in_channels :: sp.map (fun x => x / 2)) =
      .ok (N :: d.base.in_channels :: sp.map (fun x => x / 2)) := by
    rw [hn]
    exact groupNormShapeOk hC
  have hconv1 : conv1Shape d.base (N :: d.base.in_channels :: sp) =
      .ok (N :: d.base.in_channels :: sp.map (fun x => x / 2)) := by
    unfold conv1Shape
    rw [ht, hs]
    rw [if_neg Bool.false_ne_true]
    exact convShapeOk hr hhalf
  have hbase : mednextBlockShape d.base (N :: d.base.in_channels :: sp) =
      .ok (N :: d.base.out_channels :: sp.map (fun x => x / 2)) := by
    unfold mednextBlockShape
    simp only [hconv1, hnorm, exceptOkBind, convShapeOk hlen2 hmapOne2,
      hgrn, Bool.false_eq_true, if_false, hdr]
  have hres : convShape d.base.in_channels d.base.out_channels 1 2 0
      d.base.rank (N :: d.base.in_channels :: sp) =
      .ok (N :: d.base.out_channels :: sp.map (fun x => x / 2)) :=
    convShapeOk hr
      (mapMOkMap (fun x hx => convOutDimHalfOne (hsp x hx).1 (hsp x hx).2))
  unfold mednextDownBlockShape
  rw [hbase, exceptOkBind]
  cases hrs : d.resample_do_res <;> simp [hres, exceptOkBind, addShapeSelf]

/-- A `MedNeXtUpBlock` on an input with positive spatial sizes doubles
every spatial axis exactly (transposed stride-2 convolution produces
`2*x - 1` per axis, the leading-edge pad restores `2*x`, identically on
the main and the parallel residual path). -/
theorem upBlockShapeOk (u : MedNeXtUpBlockObj) (N : ℕ) (sp : List ℕ)
    (hk : u.base.kernel_size % 2 = 1) (hs : u.base.conv1_stride = 2)
    (ht : u.base.conv1_transposed = true)
    (hn : u.base.norm = some (.group u.base.in_channels u.base.in_channels))
    (hdr : u.base.do_res = false) (hgrn : u.base.grn = false)
    (hr : sp.length = u.base.rank)
    (hsp : ∀ x ∈ sp, 1 ≤ x) (hC : 1 ≤ u.base.in_channels) :
    mednextUpBlockShape u (N :: u.base.in_channels :: sp) =
      .ok (N :: u.base.out_channels :: sp.map (fun x => 2 * x)) := by
  have hdouble : sp.mapM (fun x => convTransOutDim x u.base.kernel_size 2
      (u.base.kernel_size / 2)) = .ok (sp.map (fun x => 2 * x - 1)) :=
    mapMOkMap (fun x hx => convTransOutDimDouble hk (hsp x hx))
  have hlen2 : (sp.map (fun x => 2 * x - 1)).length = u.base.rank := by
    simp [hr]
  have hmapOne2 : (sp.map (fun x => 2 * x - 1)).mapM
      (fun x => convOutDim x 1 1 0) = .ok (sp.map (fun x => 2 * x - 1)) := by
    refine mapMOkId (fun x hx => ?_)
    obtain ⟨y, hy, rfl⟩ := List.mem_map.mp hx
    have := hsp y hy
    exact convOutDimOne (by omega)
  have hpadmap : (sp.map (fun x => 2 * x - 1)).map (fun x => x + 1) =
      sp.map (fun x => 2 * x) := by
    rw [List.map_map]
    refine List.map_congr_left (fun x hx => ?_)
    have := hsp x hx
    simp
    omega
  have hnorm : normShapeOpt u.base.norm
      (N :: u.base.in_channels :: sp.map (fun x => 2 * x - 1)) =
      .ok (N :: u.base.in_channels :: sp.map (fun x => 2 * x - 1)) := by
    rw [hn]
    exact groupNormShapeOk hC
  have hconv1 : conv1Shape u.base (N :: u.base.in_channels :: sp) =
      .ok (N :: u.base.in_channels :: sp.map (fun x => 2 * x - 1)) := by
    unfold conv1Shape
    rw [ht, hs]
    rw [if_pos rfl]
    exact convTransShapeOk hr hdouble
  have hbase : mednextBlockShape u.base (N :: u.base.in_channels :: sp) =
      .ok (N :: u.base.out_channels :: sp.map (fun x => 2 * x - 1)) := by
    unfold mednextBlockShape
    simp only [hconv1, hnorm, exceptOkBind, convShapeOk hlen2 hmapOne2,
      hgrn, Bool.false_eq_true, if_false, hdr]
  have hpad : padSpatialOne u.base.rank
      (N :: u.base.out_channels :: sp.map (fun x => 2 * x - 1)) =
      .ok (N :: u.base.out_channels :: sp.map (fun x => 2 * x)) := by
    rw [padSpatialOneCons hlen2, hpadmap]
  have hres : convTransShape u.base.in_channels u.base.out_channels 1 2 0
      u.base.rank (N :: u.base.in_channels :: sp) =
      .ok (N :: u.base.out_channels :: sp.map (fun x => 2 * x - 1)) :=
    convTransShapeOk hr
      (mapMOkMap (fun x hx => convTransOutDimDoubleOne (hsp x hx)))
  unfold mednextUpBlockShape
  rw [hbase, exceptOkBind, hpad, exceptOkBind]
  cases hrs : u.resample_do_res <;>
    simp [hres, exceptOkBind, hpad, addShapeSelf]

/-- Iterating the preservation law over a stage's block sequence. -/
theorem blockSeqShapePreserve {b : MedNeXtBlockObj} {s : List ℕ} (m : ℕ)
    (h : mednextBlockShape b s = .ok s) :
    blockSeqShape (List.replicate m b) s = .ok s := by
  induction m with
  | zero => rfl
  | succ n ih =>
    unfold blockSeqShape at ih ⊢
    rw [List.replicate_succ, List.foldlM_cons, h, exceptOkBind]
    exact ih

/-- Propagating a property of the final value through a bind. -/
theorem bindPred {α β : Type} (P : β → Prop) {x : Except PyErr α}
    {f : α → Except PyErr β} {r : β} (h : x >>= f = .ok r)
    (hf : ∀ a r2, f a = .ok r2 → P r2) : P r := by
  cases x with
  | error e => simp [Bind.bind, Except.bind] at h
  | ok a => exact hf a r (by simpa [Bind.bind, Except.bind] using h)

theorem bindCongr {α β : Type} (x : Except PyErr α)
    {f g : α → Except PyErr β} (h : ∀ a, f a = g a) : x >>= f = x >>= g := by
  cases x <;> simp [Bind.bind, Except.bind, h]

theorem exceptMapBind {α β γ : Type} (x : Except PyErr α)
    (g : α → Except PyErr β) (f : β → γ) :
    (x >>= g).map f = x >>= fun a => (g a).map f := by
  cases x <;> rfl

theorem exceptMapBindFlip {α β γ : Type} (x : Except PyErr α)
    (f : α → β) (g : β → Except PyErr γ) :
    (x.map f) >>= g = x >>= fun a => g (f a) := by
  cases x <;> rfl

/-- An output head maps its input channel width to the class count and
keeps the spatial sizes (kernel-1, stride-1 transposed convolution). -/
theorem outBlockShapeOk {o : OutBlockObj} {N : ℕ} {sp : List ℕ}
    (hr : sp.length = o.rank) (hsp : ∀ d ∈ sp, 1 ≤ d) :
    outBlockShape o (N :: o.in_channels :: sp) =
      .ok (N :: o.n_classes :: sp) := by
  unfold outBlockShape
  exact convTransShapeOk hr (mapMOkId (fun d hd => convTransOutDimId (hsp d hd)))

theorem stdBlockPreserve (N cin e k rank : ℕ) (dr : Bool) (sp : List ℕ)
    (hk : k % 2 = 1) (hr : sp.length = rank) (hsp : ∀ d ∈ sp, 1 ≤ d)
    (hc : 1 ≤ cin) :
    mednextBlockShape (stdBlock cin cin e k dr rank false) (N :: cin :: sp) =
      .ok (N :: cin :: sp) :=
  blockShapePreserve _ N sp rfl hk rfl rfl rfl rfl hr hsp hc

theorem stdDownOk (N cin cout e k rank : ℕ) (b : Bool) (sp : List ℕ)
    (hk : k % 2 = 1) (hr : sp.length = rank)
    (hsp : ∀ x ∈ sp, x % 2 = 0 ∧ 1 ≤ x) (hc : 1 ≤ cin) :
    mednextDownBlockShape (stdDown cin cout e k b rank false)
      (N :: cin :: sp) = .ok (N :: cout :: sp.map (fun x => x / 2)) :=
  downBlockShapeOk _ N sp hk rfl rfl rfl rfl rfl hr hsp hc

theorem stdUpOk (N cin cout e k rank : ℕ) (b : Bool) (sp : List ℕ)
    (hk : k % 2 = 1) (hr : sp.length = rank) (hsp : ∀ x ∈ sp, 1 ≤ x)
    (hc : 1 ≤ cin) :
    mednextUpBlockShape (stdUp cin cout e k b rank false)
      (N :: cin :: sp) = .ok (N :: cout :: sp.map (fun x => 2 * x)) :=
  upBlockShapeOk _ N sp hk rfl rfl rfl rfl rfl hr hsp hc

theorem downInitStd (cin cout e k : ℕ) (b : Bool) (dim : String) (g : Bool)
    (hdim : dim = "2d" ∨ dim = "3d") :
    mednextDownBlockInit cin cout e k b "group" dim g =
      .ok (stdDown cin cout e k b (if dim = "2d" then 2 else 3) g) := by
  rcases hdim with h | h <;> subst h <;> rfl

theorem upInitStd (cin cout e k : ℕ) (b : Bool) (dim : String) (g : Bool)
    (hdim : dim = "2d" ∨ dim = "3d") :
    mednextUpBlockInit cin cout e k b "group" dim g =
      .ok (stdUp cin cout e k b (if dim = "2d" then 2 else 3) g) := by
  rcases hdim with h | h <;> subst h <;> rfl

theorem spatialNumelRep (N C r v : ℕ) :
    spatialNumel (N :: C :: List.replicate r v) = v ^ r := by
  simp [spatialNumel, List.prod_replicate]

theorem memRepPos {r v : ℕ} (hv : 1 ≤ v) :
    ∀ x ∈ List.replicate r v, 1 ≤ x := by
  intro x hx
  rw [List.eq_of_mem_replicate hx]
  exact hv

theorem memRepEvenPos {r v : ℕ} (hv : 1 ≤ v) :
    ∀ x ∈ List.replicate r (2 * v), x % 2 = 0 ∧ 1 ≤ x := by
  intro x hx
  rw [List.eq_of_mem_replicate hx]
  omega

/-- The record that `MedNeXtDecoder.__init__` constructs for a scalar
expansion ratio, a 9-element block-count list, the 'group' normalization
kind and no checkpointing (proved definitionally for both ranks). -/
theorem decoderInitStd (i n cls e k : ℕ) (dr drud : Bool) (dim : String)
    (g : Bool) (c0 c1 c2 c3 c4 c5 c6 c7 c8 : ℕ)
    (hdim : dim = "2d" ∨ dim = "3d") :
    mednextDecoderInit i n cls (.inl e) k true dr drud none
      [c0, c1, c2, c3, c4, c5, c6, c7, c8] "group" dim g =
    .ok {
      do_ds := true
      outside_block_checkpointing := false
      rank := if dim = "2d" then 2 else 3
      bottleneck := List.replicate c4
        (stdBlock (16 * n) (16 * n) e k dr (if dim = "2d" then 2 else 3) g)
      up_3 := stdUp (16 * n) (8 * n) e k drud (if dim = "2d" then 2 else 3) g
      dec_block_3 := List.replicate c5
        (stdBlock (8 * n) (8 * n) e k dr (if dim = "2d" then 2 else 3) g)
      up_2 := stdUp (8 * n) (4 * n) e k drud (if dim = "2d" then 2 else 3) g
      dec_block_2 := List.replicate c6
        (stdBlock (4 * n) (4 * n) e k dr (if dim = "2d" then 2 else 3) g)
      up_1 := stdUp (4 * n) (2 * n) e k drud (if dim = "2d" then 2 else 3) g
      dec_block_1 := List.replicate c7
        (stdBlock (2 * n) (2 * n) e k dr (if dim = "2d" then 2 else 3) g)
      up_0 := stdUp (2 * n) n e k drud (if dim = "2d" then 2 else 3) g
      dec_block_0 := List.replicate c8
        (stdBlock n n e k dr (if dim = "2d" then 2 else 3) g)
      out_0 := { in_channels := n
                 n_classes := cls
                 rank := if dim = "2d" then 2 else 3 }
      out_1 :=
        some { in_channels := 2 * n, n_classes := cls, rank := if dim = "2d" then 2 else 3 }
      out_2 :=
        some { in_channels := 4 * n, n_classes := cls, rank := if dim = "2d" then 2 else 3 }
      out_3 :=
        some { in_channels := 8 * n, n_classes := cls, rank := if dim = "2d" then 2 else 3 }
      out_4 :=
        some { in_channels := 16 * n, n_classes := cls, rank := if dim = "2d" then 2 else 3 }
      } := by
  rcases hdim with h | h <;> subst h <;> rfl

/-- For a supported spatial rank, `MedNeXtBlock.__init__` succeeds. -/
theorem blockInitOk {i o e k : ℕ} {dr : Bool} {nt : String}
    {ng : Option ℕ} {dim : String} {g : Bool}
    (hdim : dim = "2d" ∨ dim = "3d") :
    ∃ b, mednextBlockInit i o e k dr nt ng dim g = .ok b := by
  unfold mednextBlockInit
  rw [if_pos hdim]
  exact ⟨_, rfl⟩

/-- The fields of a successfully constructed `MedNeXtBlock`. -/
theorem blockInitFields {i o e k : ℕ} {dr : Bool} {nt : String}
    {ng : Option ℕ} {dim : String} {g : Bool} {b : MedNeXtBlockObj}
    (h : mednextBlockInit i o e k dr nt ng dim g = .ok b) :
    b.in_channels = i ∧ b.out_channels = o ∧ b.exp_r = e ∧
    b.kernel_size = k ∧ b.do_res = dr ∧ b.grn = g ∧
    b.conv1_stride = 1 ∧ b.conv1_transposed = false ∧
    b.norm = (if nt = "group" then some (.group i i)
      else if nt = "layer" then some (.layerCF i) else none) ∧
    b.rank = (if dim = "2d" then 2 else 3) := by
  unfold mednextBlockInit at h
  split at h
  · injection h with h
    subst h
    exact ⟨rfl, rfl, rfl, rfl, rfl, rfl, rfl, rfl, rfl, rfl⟩
  · cases h

/-- A block whose `norm` attribute was never assigned can never complete a
forward pass: either the depthwise convolution already fails on the input
shape, or the subsequent attribute read fails. -/
theorem blockShapeNormNone (b : MedNeXtBlockObj) (hn : b.norm = none) :
    ∀ s r, mednextBlockShape b s ≠ .ok r := by
  intro s r hcontra
  unfold mednextBlockShape at hcontra
  cases hconv : conv1Shape b s <;>
    simp [hconv, Bind.bind, Except.bind, normShapeOpt, hn] at hcontra

/-! ## Claim theorems -/

/-- C1: the specification requires that a MedNeXt built with n_channels=32,
in_channels=1, n_classes=3, dim='3d', block_counts=[2,2,2,2,2,2,2,2,2],
kernel_size=3 and deep_supervision=True, run on an input of shape
(1,1,64,64,64), returns 5 tensors with channel count 3 and cube spatial
shapes 4, 8, 16, 32 and 64.  The code instead raises `AttributeError`:
`MedNeXtEncoder.forward` reads `self.return_skips`, which no `__init__` in
the module ever assigns, so `MedNeXt.forward` produces no output at all. -/
theorem c1_network_forward_raises :
    (mednextInit 1 32 3 (.inl 4) 3 true false false none
      [2, 2, 2, 2, 2, 2, 2, 2, 2] "group" "3d" false).bind
      (fun m => mednextForward m [1, 1, 64, 64, 64]) =
    .error .attributeError := by decide

/-- C2: the specification requires `MedNeXtEncoder.forward` to produce an
ordered sequence of exactly 5 feature maps, finest first.  The code does
build exactly that list `ret` internally (second conjunct: the five stage
shapes for the standard configuration, strictly decreasing in spatial
size, i.e. finest to coarsest), but `forward` then evaluates
`if self.return_skips:` on the never-assigned attribute `return_skips`
and raises `AttributeError` instead of returning the sequence (first
conjunct). -/
theorem c2_encoder_forward_raises :
    ((mednextEncoderInit 1 32 (.inl 4) 3 false false none
      [2, 2, 2, 2, 2, 2, 2, 2, 2] "group" "3d" false).bind
      (fun e => mednextEncoderForward e [1, 1, 64, 64, 64]) =
      .error .attributeError) ∧
    ((mednextEncoderInit 1 32 (.inl 4) 3 false false none
      [2, 2, 2, 2, 2, 2, 2, 2, 2] "group" "3d" false).bind
      (fun e => mednextEncoderRet e [1, 1, 64, 64, 64]) =
      .ok [[1, 32, 64, 64, 64], [1, 64, 32, 32, 32], [1, 128, 16, 16, 16],
           [1, 256, 8, 8, 8], [1, 512, 4, 4, 4]]) ∧
    strictlyCoarser [[1, 32, 64, 64, 64], [1, 64, 32, 32, 32],
      [1, 128, 16, 16, 16], [1, 256, 8, 8, 8], [1, 512, 4, 4, 4]] := by
  refine ⟨by decide, by decide, by decide⟩

/-- C3 counterexample: the claim also asserts that `MedNeXt.forward`
returns a single logit tensor when deep supervision is disabled.  It does
not: on a deep-supervision-off network the forward pass raises
`AttributeError` (the encoder bug) and returns nothing. -/
theorem c3_counterexample :
    (mednextInit 1 1 1 (.inl 2) 3 false false false none
      [1, 1, 1, 1, 1, 1, 1, 1, 1] "group" "3d" false).bind
      (fun m => mednextForward m [1, 1, 16, 16, 16]) =
    .error .attributeError := by decide

/-- C5 counterexample: the claim states that constructing a `MedNeXtBlock`
with a normalization kind other than 'group' or 'layer' fails at
construction time.  It does not: with `norm_type='batch'` the constructor
succeeds and returns a block whose `norm` attribute was never set. -/
theorem c5_counterexample :
    mednextBlockInit 32 32 4 7 true "batch" none "3d" false =
    .ok { in_channels := 32, out_channels := 32, exp_r := 4,
          kernel_size := 7, do_res := true, rank := 3, norm := none,
          grn := false, conv1_stride := 1, conv1_transposed := false } := by
  decide

/-- C5 amended: constructing a `MedNeXtBlock` with an unsupported
normalization kind does NOT fail at construction: the constructor succeeds
(for any supported spatial rank) but leaves the block without a `norm`
attribute, so every later `forward` call fails (with `AttributeError` once
the depthwise convolution has succeeded) instead of returning a result. -/
theorem c5_amended (in_channels out_channels exp_r kernel_size : ℕ)
    (do_res : Bool) (norm_type : String) (n_groups : Option ℕ)
    (dim : String) (grn : Bool)
    (h1 : norm_type ≠ "group") (h2 : norm_type ≠ "layer")
    (hdim : dim = "2d" ∨ dim = "3d") :
    ∃ b, mednextBlockInit in_channels out_channels exp_r kernel_size
        do_res norm_type n_groups dim grn = .ok b ∧
      b.norm = none ∧
      ∀ s r, mednextBlockShape b s ≠ .ok r := by
  obtain ⟨b, hb⟩ := @blockInitOk in_channels out_channels exp_r kernel_size
    do_res norm_type n_groups dim grn hdim
  have hfields := blockInitFields hb
  have hnorm : b.norm = none := by
    rw [hfields.2.2.2.2.2.2.2.2.1, if_neg h1, if_neg h2]
  exact ⟨b, hb, hnorm, blockShapeNormNone b hnorm⟩

/-- C5 witness: the amended statement at the concrete unsupported kind
'batch' with spatial rank '3d'. -/
theorem c5_amended_witness :
    ∃ b, mednextBlockInit 32 32 4 7 true "batch" none "3d" false = .ok b ∧
      b.norm = none ∧
      ∀ s r, mednextBlockShape b s ≠ .ok r :=
  c5_amended 32 32 4 7 true "batch" none "3d" false (by decide) (by decide)
    (Or.inr rfl)

/-- C6: the spec says that for both supported spatial ranks the
channels_first `LayerNorm` returns the per-channel affine of the
channel-normalized input, broadcast over all spatial axes (so the shape is
preserved).  The code's affine step indexes `weight[:, None, None, None]`
-- three trailing axes -- which is only correct for 5-dimensional ('3d')
inputs (fourth conjunct).  For the 4-dimensional ('2d') inputs that the
class docstring itself describes, the weight of shape (C,1,1,1) broadcasts
against the batch axis: on input shape (1,2,1,1) the result has shape
(2,2,1,1) (first and second conjuncts), and on input shape (2,3,1,1) the
forward raises a shape error (third conjunct). -/
theorem c6_layernorm_misbroadcast :
    layerNormCFShape 2 [1, 2, 1, 1] = .ok [2, 2, 1, 1] ∧
    [2, 2, 1, 1] ≠ [1, 2, 1, 1] ∧
    layerNormCFShape 3 [2, 3, 1, 1] = .error .shapeError ∧
    layerNormCFShape 2 [1, 2, 3, 3, 3] = .ok [1, 2, 3, 3, 3] := by
  refine ⟨by decide, by decide, by decide, by decide⟩

/-- C8: a `MedNeXtBlock` with recalibration (GRN) enabled and its
`grn_gamma`/`grn_beta` parameters at their zero initialization computes,
for every input, exactly the same output as the identically-parameterized
block with recalibration disabled: with `gamma = beta = 0` the step
`x1 = gamma * (x1 * nx) + beta + x1` is the identity, independently of the
norm ratio `nx` (in particular independently of the square-root function
and of the 1e-6 stabilizer). -/
theorem c8_grn_zero_init_noop {ι : Type} [Fintype ι] (b : ValueBlockObj ι)
    (x : ℕ → ℕ → ι → ℚ) (hg : b.grn = true)
    (hga : b.grn_gamma = fun _ => 0) (hbe : b.grn_beta = fun _ => 0) :
    valueBlockForward b x = valueBlockForward { b with grn := false } x := by
  have hid : ∀ y : ℕ → ℕ → ι → ℚ,
      grnStep b.cexp b.sqrtFn (fun _ => 0) (fun _ => 0) y = y := by
    intro y
    funext n c t
    simp [grnStep]
  simp [valueBlockForward, hg, hga, hbe, hid]

/-- C8 witness: the zero-initialized GRN block coincides with the
GRN-disabled block on a concrete input. -/
theorem c8_grn_zero_init_noop_witness :
    valueBlockForward
      { conv1 := id, norm := id, conv2 := id, act := id, conv3 := id,
        cexp := 1, sqrtFn := id, grn := true, grn_gamma := fun _ => 0,
        grn_beta := fun _ => 0, do_res := false }
      (fun _ _ (_ : Fin 1) => 1) =
    valueBlockForward
      { conv1 := id, norm := id, conv2 := id, act := id, conv3 := id,
        cexp := 1, sqrtFn := id, grn := false, grn_gamma := fun _ => 0,
        grn_beta := fun _ => 0, do_res := false }
      (fun _ _ (_ : Fin 1) => 1) :=
  c8_grn_zero_init_noop _ _ rfl rfl rfl

/-- C3 amended: `MedNeXtDecoder.forward` (the decoder itself; the full
`MedNeXt.forward` never reaches it, see the counterexample) returns a
single logit tensor when deep supervision is disabled and a list of
exactly 5 logit tensors when it is enabled; the two modes are
distinguishable by return type (`single` vs `multi`), never by collection
length. -/
theorem c3_decoder_return_type (d : MedNeXtDecoderObj) (x0 : List ℕ)
    (s3 s2 s1 s0 : List ℕ) (r : DecOut)
    (h : mednextDecoderForward d x0 s3 s2 s1 s0 = .ok r) :
    (d.do_ds = true → ∃ l, r = .multi l ∧ l.length = 5) ∧
    (d.do_ds = false → ∃ t, r = .single t) := by
  unfold mednextDecoderForward dsHead at h
  cases hds : d.do_ds
  case false =>
    rw [hds] at h
    simp only [Bool.false_eq_true, if_false, exceptOkBind] at h
    refine ⟨fun hc => (nomatch hc), fun _ => ?_⟩
    repeat
      apply bindPred _ h
      intro _ r h
    injection h with h
    subst h
    exact ⟨_, rfl⟩
  case true =>
    rw [hds] at h
    simp only [eq_self_iff_true, if_true] at h
    refine ⟨fun _ => ?_, fun hc => (nomatch hc)⟩
    repeat
      apply bindPred _ h
      intro _ r h
    split at h
    · injection h with h
      subst h
      refine ⟨_, rfl, ?_⟩
      rfl
    · simp at h

/-- C4 counterexample: with deep supervision enabled the decoder's
returned collection is NOT ordered coarsest first.  On a concrete
configuration (base width 1, bottleneck input of spatial size 1, skips of
sizes 2, 4, 8, 16) the returned list has spatial sizes 16, 8, 4, 2, 1 --
strictly decreasing -- and its FIRST element's spatial shape differs from
the bottleneck's spatial size (the LAST one matches it). -/
theorem c4_counterexample :
    ((mednextDecoderInit 1 1 1 (.inl 2) 3 true false true none
      [2, 2, 2, 2, 2, 2, 2, 2, 2] "group" "3d" false).bind
      (fun d => mednextDecoderForward d [1, 16, 1, 1, 1] [1, 8, 2, 2, 2]
        [1, 4, 4, 4, 4] [1, 2, 8, 8, 8] [1, 1, 16, 16, 16]) =
      .ok (.multi [[1, 1, 16, 16, 16], [1, 1, 8, 8, 8], [1, 1, 4, 4, 4],
                   [1, 1, 2, 2, 2], [1, 1, 1, 1, 1]])) ∧
    ¬ strictlyFiner [[1, 1, 16, 16, 16], [1, 1, 8, 8, 8], [1, 1, 4, 4, 4],
                     [1, 1, 2, 2, 2], [1, 1, 1, 1, 1]] ∧
    spatialDims [1, 1, 16, 16, 16] ≠ spatialDims [1, 16, 1, 1, 1] := by
  refine ⟨by decide, by decide, by decide⟩

theorem dsHeadSomeOk {o : OutBlockObj} {N : ℕ} {sp : List ℕ}
    (hr : sp.length = o.rank) (hsp : ∀ d ∈ sp, 1 ≤ d) :
    dsHead true (some o) (N :: o.in_channels :: sp) =
      .ok (some (N :: o.n_classes :: sp)) := by
  unfold dsHead outOptShape
  rw [if_pos rfl]
  show Except.map some (outBlockShape o (N :: o.in_channels :: sp)) = _
  rw [outBlockShapeOk hr hsp]
  rfl

/-- C4 amended: when deep supervision is enabled the collection of 5 logit
maps returned by the decoder's forward pass is ordered FINEST first: for a
valid configuration (group normalization, scalar expansion ratio, odd
kernel, positive base width) and a bottleneck input of cube size B with
skips of sizes 2B, 4B, 8B, 16B at the matching widths, the spatial sizes
of the 5 returned tensors are 16B, 8B, 4B, 2B, B -- strictly DECREASING
from the first element to the last -- and it is the LAST element (not the
first) whose spatial shape equals the bottleneck's spatial size. -/
theorem c4_decoder_output_order (N i n cls e k B : ℕ)
    (c0 c1 c2 c3 c4 c5 c6 c7 c8 : ℕ) (dr drud : Bool) (dim : String)
    (hdim : dim = "2d" ∨ dim = "3d") (hk : k % 2 = 1) (hn : 1 ≤ n)
    (hB : 1 ≤ B) :
    ((mednextDecoderInit i n cls (.inl e) k true dr drud none
        [c0, c1, c2, c3, c4, c5, c6, c7, c8] "group" dim false).bind
      (fun d => mednextDecoderForward d
        (N :: 16 * n :: List.replicate (if dim = "2d" then 2 else 3) B)
        (N :: 8 * n :: List.replicate (if dim = "2d" then 2 else 3) (2 * B))
        (N :: 4 * n :: List.replicate (if dim = "2d" then 2 else 3) (4 * B))
        (N :: 2 * n :: List.replicate (if dim = "2d" then 2 else 3) (8 * B))
        (N :: n :: List.replicate (if dim = "2d" then 2 else 3) (16 * B))) =
      .ok (.multi
        [N :: cls :: List.replicate (if dim = "2d" then 2 else 3) (16 * B),
         N :: cls :: List.replicate (if dim = "2d" then 2 else 3) (8 * B),
         N :: cls :: List.replicate (if dim = "2d" then 2 else 3) (4 * B),
         N :: cls :: List.replicate (if dim = "2d" then 2 else 3) (2 * B),
         N :: cls :: List.replicate (if dim = "2d" then 2 else 3) B])) ∧
    strictlyCoarser
      [N :: cls :: List.replicate (if dim = "2d" then 2 else 3) (16 * B),
       N :: cls :: List.replicate (if dim = "2d" then 2 else 3) (8 * B),
       N :: cls :: List.replicate (if dim = "2d" then 2 else 3) (4 * B),
       N :: cls :: List.replicate (if dim = "2d" then 2 else 3) (2 * B),
       N :: cls :: List.replicate (if dim = "2d" then 2 else 3) B] ∧
    spatialDims (N :: cls :: List.replicate (if dim = "2d" then 2 else 3) B)
      = spatialDims
        (N :: 16 * n :: List.replicate (if dim = "2d" then 2 else 3) B) := by
  have hrpos : 0 < (if dim = "2d" then 2 else 3) := by
    rcases hdim with h | h <;> subst h <;> simp
  refine ⟨?_, ?_, rfl⟩
  · set r := if dim = "2d" then 2 else 3 with hrdef
    have hlen : ∀ v : ℕ, (List.replicate r v).length = r := by simp
    have hbot : blockSeqShape
        (List.replicate c4 (stdBlock (16 * n) (16 * n) e k dr r false))
        (N :: 16 * n :: List.replicate r B) =
        .ok (N :: 16 * n :: List.replicate r B) :=
      blockSeqShapePreserve c4
        (stdBlockPreserve N (16 * n) e k r dr _ hk (hlen B)
          (memRepPos hB) (by omega))
    have hds4 : dsHead true
        (some { in_channels := 16 * n, n_classes := cls, rank := r })
        (N :: 16 * n :: List.replicate r B) =
        .ok (some (N :: cls :: List.replicate r B)) :=
      dsHeadSomeOk (hlen B) (memRepPos hB)
    have hup3 : mednextUpBlockShape (stdUp (16 * n) (8 * n) e k drud r false)
        (N :: 16 * n :: List.replicate r B) =
        .ok (N :: 8 * n :: List.replicate r (2 * B)) := by
      have := stdUpOk N (16 * n) (8 * n) e k r drud _ hk (hlen B)
        (memRepPos hB) (by omega)
      rwa [List.map_replicate] at this
    have hadd3 : addShape (N :: 8 * n :: List.replicate r (2 * B))
        (N :: 8 * n :: List.replicate r (2 * B)) =
        .ok (N :: 8 * n :: List.replicate r (2 * B)) := addShapeSelf _
    have hseq3 : blockSeqShape
        (List.replicate c5 (stdBlock (8 * n) (8 * n) e k dr r false))
        (N :: 8 * n :: List.replicate r (2 * B)) =
        .ok (N :: 8 * n :: List.replicate r (2 * B)) :=
      blockSeqShapePreserve c5
        (stdBlockPreserve N (8 * n) e k r dr _ hk (hlen (2 * B))
          (memRepPos (by omega)) (by omega))
    have hds3 : dsHead true
        (some { in_channels := 8 * n, n_classes := cls, rank := r })
        (N :: 8 * n :: List.replicate r (2 * B)) =
        .ok (some (N :: cls :: List.replicate r (2 * B))) :=
      dsHeadSomeOk (hlen (2 * B)) (memRepPos (by omega))
    have hup2 : mednextUpBlockShape (stdUp (8 * n) (4 * n) e k drud r false)
        (N :: 8 * n :: List.replicate r (2 * B)) =
        .ok (N :: 4 * n :: List.replicate r (4 * B)) := by
      have := stdUpOk N (8 * n) (4 * n) e k r drud _ hk (hlen (2 * B))
        (memRepPos (by omega)) (by omega)
      rw [List.map_replicate] at this
      rwa [show 2 * (2 * B) = 4 * B by ring] at this
    have hadd2 : addShape (N :: 4 * n :: List.replicate r (4 * B))
        (N :: 4 * n :: List.replicate r (4 * B)) =
        .ok (N :: 4 * n :: List.replicate r (4 * B)) := addShapeSelf _
    have hseq2 : blockSeqShape
        (List.replicate c6 (stdBlock (4 * n) (4 * n) e k dr r false))
        (N :: 4 * n :: List.replicate r (4 * B)) =
        .ok (N :: 4 * n :: List.replicate r (4 * B)) :=
      blockSeqShapePreserve c6
        (stdBlockPreserve N (4 * n) e k r dr _ hk (hlen (4 * B))
          (memRepPos (by omega)) (by omega))
    have hds2 : dsHead true
        (some { in_channels := 4 * n, n_classes := cls, rank := r })
        (N :: 4 * n :: List.replicate r (4 * B)) =
        .ok (some (N :: cls :: List.replicate r (4 * B))) :=
      dsHeadSomeOk (hlen (4 * B)) (memRepPos (by omega))
    have hup1 : mednextUpBlockShape (stdUp (4 * n) (2 * n) e k drud r false)
        (N :: 4 * n :: List.replicate r (4 * B)) =
        .ok (N :: 2 * n :: List.replicate r (8 * B)) := by
      have := stdUpOk N (4 * n) (2 * n) e k r drud _ hk (hlen (4 * B))
        (memRepPos (by omega)) (by omega)
      rw [List.map_replicate] at this
      rwa [show 2 * (4 * B) = 8 * B by ring] at this
    have hadd1 : addShape (N :: 2 * n :: List.replicate r (8 * B))
        (N :: 2 * n :: List.replicate r (8 * B)) =
        .ok (N :: 2 * n :: List.replicate r (8 * B)) := addShapeSelf _
    have hseq1 : blockSeqShape
        (List.replicate c7 (stdBlock (2 * n) (2 * n) e k dr r false))
        (N :: 2 * n :: List.replicate r (8 * B)) =
        .ok (N :: 2 * n :: List.replicate r (8 * B)) :=
      blockSeqShapePreserve c7
        (stdBlockPreserve N (2 * n) e k r dr _ hk (hlen (8 * B))
          (memRepPos (by omega)) (by omega))
    have hds1 : dsHead true
        (some { in_channels := 2 * n, n_classes := cls, rank := r })
        (N :: 2 * n :: List.replicate r (8 * B)) =
        .ok (some (N :: cls :: List.replicate r (8 * B))) :=
      dsHeadSomeOk (hlen (8 * B)) (memRepPos (by omega))
    have hup0 : mednextUpBlockShape (stdUp (2 * n) n e k drud r false)
        (N :: 2 * n :: List.replicate r (8 * B)) =
        .ok (N :: n :: List.replicate r (16 * B)) := by
      have := stdUpOk N (2 * n) n e k r drud _ hk (hlen (8 * B))
        (memRepPos (by omega)) (by omega)
      rw [List.map_replicate] at this
      rwa [show 2 * (8 * B) = 16 * B by ring] at this
    have hadd0 : addShape (N :: n :: List.replicate r (16 * B))
        (N :: n :: List.replicate r (16 * B)) =
        .ok (N :: n :: List.replicate r (16 * B)) := addShapeSelf _
    have hseq0 : blockSeqShape
        (List.replicate c8 (stdBlock n n e k dr r false))
        (N :: n :: List.replicate r (16 * B)) =
        .ok (N :: n :: List.replicate r (16 * B)) :=
      blockSeqShapePreserve c8
        (stdBlockPreserve N n e k r dr _ hk (hlen (16 * B))
          (memRepPos (by omega)) hn)
    have hout0 : outBlockShape
        { in_channels := n, n_classes := cls, rank := r }
        (N :: n :: List.replicate r (16 * B)) =
        .ok (N :: cls :: List.replicate r (16 * B)) :=
      outBlockShapeOk (hlen (16 * B)) (memRepPos (by omega))
    rw [decoderInitStd i n cls e k dr drud dim false c0 c1 c2 c3 c4 c5 c6
      c7 c8 hdim]
    simp only [Except.bind, ← hrdef]
    simp only [mednextDecoderForward, hbot, hds4, hup3, hadd3, hseq3, hds3,
      hup2, hadd2, hseq2, hds2, hup1, hadd1, hseq1, hds1, hup0, hadd0,
      hseq0, hout0, exceptOkBind, if_true]
  · simp only [strictlyCoarser, spatialNumelRep]
    have hp : ∀ a b : ℕ, a < b → a ^ (if dim = "2d" then 2 else 3) <
        b ^ (if dim = "2d" then 2 else 3) :=
      fun a b hab => Nat.pow_lt_pow_left hab (by omega)
    exact ⟨hp _ _ (by omega), hp _ _ (by omega), hp _ _ (by omega),
      hp _ _ (by omega), trivial⟩

/-- C4 witness: the amended ordering statement at a concrete
configuration (base width 1, bottleneck cube size 1). -/
theorem c4_decoder_output_order_witness :
    ((mednextDecoderInit 1 1 1 (.inl 1) 3 true false true none
        [1, 1, 1, 1, 1, 1, 1, 1, 1] "group" "3d" false).bind
      (fun d => mednextDecoderForward d [1, 16, 1, 1, 1] [1, 8, 2, 2, 2]
        [1, 4, 4, 4, 4] [1, 2, 8, 8, 8] [1, 1, 16, 16, 16]) =
      .ok (.multi [[1, 1, 16, 16, 16], [1, 1, 8, 8, 8], [1, 1, 4, 4, 4],
                   [1, 1, 2, 2, 2], [1, 1, 1, 1, 1]])) ∧
    strictlyCoarser [[1, 1, 16, 16, 16], [1, 1, 8, 8, 8], [1, 1, 4, 4, 4],
                     [1, 1, 2, 2, 2], [1, 1, 1, 1, 1]] ∧
    spatialDims [1, 1, 1, 1, 1] = spatialDims [1, 16, 1, 1, 1] :=
  c4_decoder_output_order 1 1 1 1 1 3 1 1 1 1 1 1 1 1 1 1 false true "3d"
    (Or.inr rfl) (by decide) (by decide) (by decide)

/-- C7: for every input whose spatial sizes are all even (and positive),
with the channel-doubling widths (down: c to 2c, up: 2c to c), a
`MedNeXtUpBlock` applied to the output of the corresponding
`MedNeXtDownBlock` restores exactly the original shape, for both spatial
ranks and regardless of the transition-residual flag (the one-unit
leading-edge pad being applied identically to the main and the parallel
path inside the up block). -/
theorem c7_down_up_roundtrip (N C e k : ℕ) (b : Bool) (dim : String)
    (sp : List ℕ) (hdim : dim = "2d" ∨ dim = "3d") (hk : k % 2 = 1)
    (hC : 1 ≤ C) (hr : sp.length = if dim = "2d" then 2 else 3)
    (hsp : ∀ x ∈ sp, x % 2 = 0 ∧ 1 ≤ x) :
    (do
      let dn ← mednextDownBlockInit C (2 * C) e k b "group" dim false
      let up ← mednextUpBlockInit (2 * C) C e k b "group" dim false
      let y ← mednextDownBlockShape dn (N :: C :: sp)
      mednextUpBlockShape up y) = .ok (N :: C :: sp) := by
  rw [downInitStd C (2 * C) e k b dim false hdim,
      upInitStd (2 * C) C e k b dim false hdim]
  simp only [exceptOkBind]
  rw [stdDownOk N C (2 * C) e k _ b sp hk hr hsp hC]
  simp only [exceptOkBind]
  have h2 : ∀ x ∈ sp.map (fun x => x / 2), 1 ≤ x := by
    intro x hx
    obtain ⟨y, hy, rfl⟩ := List.mem_map.mp hx
    have := hsp y hy
    omega
  rw [stdUpOk N (2 * C) C e k _ b _ hk (by simp [hr]) h2 (by omega)]
  have hmap : (sp.map (fun x => x / 2)).map (fun x => 2 * x) = sp := by
    rw [List.map_map]
    have : sp.map ((fun x => 2 * x) ∘ fun x => x / 2) =
        sp.map (fun x => x) := by
      refine List.map_congr_left (fun x hx => ?_)
      have := hsp x hx
      simp only [Function.comp_apply]
      omega
    rw [this, List.map_id']
  rw [hmap]

/-- C7 witness: the round trip at a concrete even-sized 3d input. -/
theorem c7_down_up_roundtrip_witness :
    (do
      let dn ← mednextDownBlockInit 1 (2 * 1) 1 3 true "group" "3d" false
      let up ← mednextUpBlockInit (2 * 1) 1 1 3 true "group" "3d" false
      let y ← mednextDownBlockShape dn (1 :: 1 :: [2, 4, 6])
      mednextUpBlockShape up y) = .ok (1 :: 1 :: [2, 4, 6]) :=
  c7_down_up_roundtrip 1 1 1 3 true "3d" [2, 4, 6] (Or.inr rfl) (by decide)
    (by decide) (by decide) (by decide)

/-- C3 witness: the return-type statement at a concrete deep-supervision
decoder that completes its forward pass. -/
theorem c3_decoder_return_type_witness :
    (mednextDecoderInit 1 1 1 (.inl 2) 3 true false true none
      [2, 2, 2, 2, 2, 2, 2, 2, 2] "group" "3d" false = .ok c3Dec) ∧
    (mednextDecoderForward c3Dec [1, 16, 1, 1, 1] [1, 8, 2, 2, 2]
      [1, 4, 4, 4, 4] [1, 2, 8, 8, 8] [1, 1, 16, 16, 16] =
      .ok (.multi [[1, 1, 16, 16, 16], [1, 1, 8, 8, 8], [1, 1, 4, 4, 4],
        [1, 1, 2, 2, 2], [1, 1, 1, 1, 1]])) ∧
    (c3Dec.do_ds = true →
      ∃ l, (DecOut.multi [[1, 1, 16, 16, 16], [1, 1, 8, 8, 8],
        [1, 1, 4, 4, 4], [1, 1, 2, 2, 2], [1, 1, 1, 1, 1]] : DecOut) =
        .multi l ∧ l.length = 5) ∧
    (c3Dec.do_ds = false →
      ∃ t, (DecOut.multi [[1, 1, 16, 16, 16], [1, 1, 8, 8, 8],
        [1, 1, 4, 4, 4], [1, 1, 2, 2, 2], [1, 1, 1, 1, 1]] : DecOut) =
        .single t) :=
  ⟨by decide, by decide,
   c3_decoder_return_type c3Dec [1, 16, 1, 1, 1] [1, 8, 2, 2, 2]
     [1, 4, 4, 4, 4] [1, 2, 8, 8, 8] [1, 1, 16, 16, 16]
     (.multi [[1, 1, 16, 16, 16], [1, 1, 8, 8, 8], [1, 1, 4, 4, 4],
       [1, 1, 2, 2, 2], [1, 1, 1, 1, 1]]) (by decide)⟩

theorem bindEq {α β : Type} (x : Except PyErr α) (f : α → Except PyErr β) :
    x >>= f = Except.bind x f := rfl

theorem exceptBindMapLeft {α β γ : Type} (x : Except PyErr α) (f : α → β)
    (g : β → Except PyErr γ) :
    Except.bind (x.map f) g = Except.bind x (fun a => g (f a)) := by
  cases x <;> rfl

theorem exceptMapBindB {α β γ : Type} (x : Except PyErr α)
    (g : α → Except PyErr β) (f : β → γ) :
    (Except.bind x g).map f = Except.bind x (fun a => (g a).map f) := by
  cases x <;> rfl

theorem exceptBindAssoc {α β γ : Type} (x : Except PyErr α)
    (f : α → Except PyErr β) (g : β → Except PyErr γ) :
    Except.bind (Except.bind x f) g =
      Except.bind x (fun a => Except.bind (f a) g) := by
  cases x <;> rfl

theorem downBlockInitBaseGrn {i o e k : ℕ} {dr : Bool} {nt dim : String}
    {g : Bool} {d : MedNeXtDownBlockObj}
    (h : mednextDownBlockInit i o e k dr nt dim g = .ok d) :
    d.base.grn = g := by
  unfold mednextDownBlockInit at h
  cases hb : mednextBlockInit i o e k false nt none dim g with
  | error er => rw [hb] at h; simp [Bind.bind, Except.bind] at h
  | ok b =>
    have hg := (blockInitFields hb).2.2.2.2.2.1
    rw [hb, exceptOkBind] at h
    injection h with h
    subst h
    exact hg

/-- `mednextEncoderInit` with checkpointing differs from the one without
only in the `outside_block_checkpointing` flag. -/
theorem encoderInitCS (i n : ℕ) (er : ℕ ⊕ List ℕ) (k : ℕ)
    (dr drud : Bool) (bc : List ℕ) (nt dim : String) (g : Bool) :
    mednextEncoderInit i n er k dr drud (some "outside_block") bc nt dim g =
    (mednextEncoderInit i n er k dr drud none bc nt dim g).map
      (fun e => { e with outside_block_checkpointing := true }) := by
  unfold mednextEncoderInit
  rw [if_pos (Or.inr rfl :
      (some "outside_block" : Option String) = none ∨
      (some "outside_block" : Option String) = some "outside_block"),
    if_pos (Or.inl rfl : (none : Option String) = none ∨
      (none : Option String) = some "outside_block")]
  by_cases hdim : dim = "2d" ∨ dim = "3d"
  · rw [if_pos hdim, if_pos hdim]
    simp only [bindEq, exceptMapBindB]
    rfl
  · rw [if_neg hdim, if_neg hdim]
    rfl

/-- `mednextDecoderInit` with checkpointing differs from the one without
only in the `outside_block_checkpointing` flag. -/
theorem decoderInitCS (i n cls : ℕ) (er : ℕ ⊕ List ℕ) (k : ℕ)
    (ds dr drud : Bool) (bc : List ℕ) (nt dim : String) (g : Bool) :
    mednextDecoderInit i n cls er k ds dr drud (some "outside_block") bc
      nt dim g =
    (mednextDecoderInit i n cls er k ds dr drud none bc nt dim g).map
      (fun d => { d with outside_block_checkpointing := true }) := by
  unfold mednextDecoderInit
  rw [if_pos (Or.inr rfl :
      (some "outside_block" : Option String) = none ∨
      (some "outside_block" : Option String) = some "outside_block"),
    if_pos (Or.inl rfl : (none : Option String) = none ∨
      (none : Option String) = some "outside_block")]
  by_cases hdim : dim = "2d" ∨ dim = "3d"
  · rw [if_pos hdim, if_pos hdim]
    simp only [bindEq, exceptMapBindB]
    rfl
  · rw [if_neg hdim, if_neg hdim]
    rfl

/-- C9: the recomputation-checkpointing mode changes nothing about the
result of the forward pass: for the same construction arguments and the
same input, a network built with checkpoint_style='outside_block' and one
built with checkpoint_style=None give identical forward results.  (In this
module the flag is only stored; none of the forward methods consults it --
`iterative_checkpoint` is never called -- so the two computations are the
same function.) -/
theorem c9_checkpoint_forward_equal (i n cls : ℕ) (er : ℕ ⊕ List ℕ)
    (k : ℕ) (ds dr drud : Bool) (bc : List ℕ) (nt dim : String) (g : Bool)
    (x : List ℕ) :
    (mednextInit i n cls er k ds dr drud (some "outside_block") bc nt
        dim g).bind (fun m => mednextForward m x) =
    (mednextInit i n cls er k ds dr drud none bc nt dim g).bind
      (fun m => mednextForward m x) := by
  unfold mednextInit
  rw [if_pos (Or.inr rfl :
      (some "outside_block" : Option String) = none ∨
      (some "outside_block" : Option String) = some "outside_block"),
    if_pos (Or.inl rfl : (none : Option String) = none ∨
      (none : Option String) = some "outside_block")]
  by_cases hdim : dim = "2d" ∨ dim = "3d"
  · rw [if_pos hdim, if_pos hdim]
    simp only [bindEq, encoderInitCS, decoderInitCS, exceptBindMapLeft,
      exceptBindAssoc]
    rfl
  · rw [if_neg hdim, if_neg hdim]

/-- C10: in every successfully constructed `MedNeXtEncoder` with
`grn = True`, the first downsample transition `down_0` has recalibration
DISABLED (its constructor call omits the `grn` argument, so the Python
default False applies), while `down_1`, `down_2` and `down_3` have it
enabled. -/
theorem c10_encoder_grn_flags (i n : ℕ) (er : ℕ ⊕ List ℕ) (k : ℕ)
    (dr drud : Bool) (cs : Option String) (bc : List ℕ) (nt dim : String)
    (e : MedNeXtEncoderObj)
    (h : mednextEncoderInit i n er k dr drud cs bc nt dim true = .ok e) :
    e.down_0.base.grn = false ∧ e.down_1.base.grn = true ∧
    e.down_2.base.grn = true ∧ e.down_3.base.grn = true := by
  unfold mednextEncoderInit at h
  by_cases hcs : cs = none ∨ cs = some "outside_block"
  · rw [if_pos hcs] at h
    by_cases hdim : dim = "2d" ∨ dim = "3d"
    · rw [if_pos hdim] at h
      simp only [exceptBindOk] at h
      obtain ⟨e0, he0, e1, he1, e2, he2, e3, he3, e4, he4, b0, hb0, b1,
        hb1, b2, hb2, b3, hb3, blk0, hblk0, d0, hd0, blk1, hblk1, d1, hd1,
        blk2, hblk2, d2, hd2, blk3, hblk3, d3, hd3, hfin⟩ := h
      injection hfin with hfin
      subst hfin
      exact ⟨downBlockInitBaseGrn hd0, downBlockInitBaseGrn hd1,
        downBlockInitBaseGrn hd2, downBlockInitBaseGrn hd3⟩
    · rw [if_neg hdim] at h
      simp at h
  · rw [if_neg hcs] at h
    simp at h

/-- C10 witness: a concrete encoder built with `grn = True` whose `down_0`
has recalibration off and `down_1`-`down_3` have it on. -/
theorem c10_encoder_grn_flags_witness :
    (mednextEncoderInit 1 1 (.inl 2) 3 false false none
      [1, 1, 1, 1, 1, 1, 1, 1, 1] "group" "3d" true = .ok c10Enc) ∧
    (c10Enc.down_0.base.grn = false ∧ c10Enc.down_1.base.grn = true ∧
     c10Enc.down_2.base.grn = true ∧ c10Enc.down_3.base.grn = true) :=
  ⟨by decide, c10_encoder_grn_flags 1 1 (.inl 2) 3 false false none
    [1, 1, 1, 1, 1, 1, 1, 1, 1] "group" "3d" c10Enc (by decide)⟩
